import Mathlib

/-!
Verification of the music-genre database pipeline (`music_agent.py`).

This file gives a shallow embedding, in Lean 4, of the core stages of the
pipeline — combination generation (`DynamicGenreGenerator.generate_combinations`),
metadata inference (`MetadataEnricher._infer_period`, `_infer_status`),
hierarchy assignment (`HierarchyBuilder.build_hierarchy`,
`_determine_level_advanced`), validation (`QualityAssurance.validate_entry`)
and duplicate detection/merging (`DuplicateDetector.merge_duplicates`,
`_merge_genre_group`, `_are_similar`, `_are_variants`) — and proves or refutes
the specified properties of those stages.

Conventions of the embedding:
- Python `str` is Lean `String`; `str.lower()` is `pyLower`, `a in b`
  (substring) is infix-of on character lists, `s[:n]` is `String.take`.
- Python `set` of words is `Finset String`; `dict` used as an insert-ordered
  map is an association list with most-recent binding first.
- Python `int` values that are in fact always non-negative (ids, levels,
  lengths) are `Nat`.
- The optional third-party fuzzy-similarity backend (`jellyfish.jaro_winkler`
  compared against the configured threshold) is an external library, not part
  of the repository; it is modelled as an abstract parameter
  `fz : Option (String → String → Bool)` (`none` = backend unavailable,
  `some jw` = the thresholded Jaro–Winkler verdict on the two lower-cased
  names).
- Randomness (used only by the micro-genre strategy and by artist/work
  sampling) is modelled as an injected stream of choices.
-/

/-- The `Genre` dataclass of `music_agent.py` (`id`, `name`, `level`,
`parent_id`, and the eleven string-valued attribute fields). -/
structure Genre where
  id : Nat
  name : String
  level : Nat
  parent_id : Option Nat
  region : String
  language : String
  period : String
  status : String
  instruments : String
  pioneers : String
  artists : String
  works : String
  source : String
  bpm : String
  time_signature : String
deriving DecidableEq, Repr

/-- A candidate produced by `generate_combinations`: the dict
`{'name': …, 'type': …, 'components': […]}`. -/
structure Candidate where
  name : String
  type : String
  components : List String
deriving DecidableEq, Repr

/-- The attribute dict returned by
`MetadataEnricher.generate_realistic_metadata` (all string fields). -/
structure Metadata where
  region : String
  language : String
  period : String
  status : String
  instruments : String
  pioneers : String
  artists : String
  works : String
  source : String
  bpm : String
  time_signature : String
deriving DecidableEq, Repr

/-- Python `s.lower()` (character-wise lower-casing). -/
def pyLower (s : String) : String :=
  ⟨s.toList.map Char.toLower⟩

/-- Python `needle in hay` on strings: contiguous-substring test. -/
def strContains (hay needle : String) : Bool :=
  decide (needle.toList <:+: hay.toList)

/-- Python `s.endswith(suffix)`. -/
def strEndsWith (s suffix : String) : Bool :=
  decide (suffix.toList <:+ s.toList)

/-- Splitting helper for `pySplit`: cut the character list at every
whitespace character (`cur` holds the characters of the current token,
in reverse). -/
def splitWsAux : List Char → List Char → List (List Char)
  | [], cur => [cur.reverse]
  | c :: cs, cur =>
    if c.isWhitespace then cur.reverse :: splitWsAux cs []
    else splitWsAux cs (c :: cur)

/-- Python `s.split()`: split on whitespace, dropping empty tokens. -/
def pySplit (s : String) : List String :=
  ((splitWsAux s.toList []).map (fun l => String.mk l)).filter (fun w => w ≠ "")

section DuplicateDetector

/-- The `synonyms` dict literal inside `DuplicateDetector._are_variants`,
as a lookup function (the dict's keys are exactly these seven words;
note that `'français'` is not a key). -/
def synonyms (w : String) : Option String :=
  if w = "uk" then some "british"
  else if w = "british" then some "uk"
  else if w = "german" then some "deutsch"
  else if w = "deutsch" then some "german"
  else if w = "french" then some "français"
  else if w = "american" then some "us"
  else if w = "us" then some "american"
  else none

/-- `set(name.lower().split())` — the word set of a name. -/
def wordSet (name : String) : Finset String :=
  (pySplit (pyLower name)).toFinset

/-- The expansion loop of `_are_variants`: for every word of the original
set that is a key of `synonyms`, add its synonym (one pass over a copy of
the set, exactly as the Python loop iterates `words.copy()`). -/
def expandSynonyms (ws : Finset String) : Finset String :=
  ws ∪ ws.biUnion (fun w => (synonyms w).toFinset)

/-- `DuplicateDetector._are_variants(name1, name2)`: lower-case and tokenize
both names into word sets, expand both with `synonyms`, and compare the
intersection against 70% of either expanded set's size.
`len(common) >= len(words) * 0.7` is stated in the exact integer form
`7 * len(words) ≤ 10 * len(common)`; `ratio_ge_70_iff` below proves it
equivalent to the rational statement `len(words) * 0.7 ≤ len(common)`. -/
def are_variants (name1 name2 : String) : Bool :=
  let words1 := expandSynonyms (wordSet name1)
  let words2 := expandSynonyms (wordSet name2)
  let common := words1 ∩ words2
  decide (7 * words1.card ≤ 10 * common.card) ||
  decide (7 * words2.card ≤ 10 * common.card)

/-- The guarded fuzzy test of `_are_similar`:
`if jellyfish: if jaro_winkler(...) > threshold: return True` — `false`
when the backend is unavailable, otherwise the backend's thresholded
verdict. -/
def fuzzyVerdict (fz : Option (String → String → Bool)) (a b : String) : Bool :=
  match fz with
  | some jw => jw a b
  | none => false

/-- `DuplicateDetector._are_similar(g1, g2)`: exact case-insensitive name
match, else the fuzzy backend's verdict on the lower-cased names (skipped
when the backend `fz` is `none`, i.e. `jellyfish` is not installed), else
the lexical-variant heuristic. -/
def are_similar (fz : Option (String → String → Bool)) (g1 g2 : Genre) : Bool :=
  if pyLower g1.name = pyLower g2.name then true
  else if fuzzyVerdict fz (pyLower g1.name) (pyLower g2.name) then true
  else if are_variants g1.name g2.name then true
  else false

/-- `dict.fromkeys(xs)` key order: keep the first occurrence of each
element, in order (`unique_sources` in `_merge_genre_group`). -/
def pyDedup : List String → List String
  | [] => []
  | x :: xs => x :: pyDedup (xs.filter (fun y => y ≠ x))
termination_by l => l.length
decreasing_by
  exact Nat.lt_succ_of_le (List.length_filter_le _ _)

/-- `DuplicateDetector._merge_genre_group(group)` with `group = base :: rest`
(the group is non-empty by construction): all fields of the first member are
kept verbatim, except `source`, which becomes the first 3 distinct member
sources joined by `' / '`. -/
def merge_genre_group (base : Genre) (rest : List Genre) : Genre :=
  let all_sources := base.source :: rest.map Genre.source
  let unique_sources := pyDedup all_sources
  let combined_source := String.intercalate " / " (unique_sources.take 3)
  { id := base.id
    name := base.name
    level := base.level
    parent_id := base.parent_id
    region := base.region
    language := base.language
    period := base.period
    status := base.status
    instruments := base.instruments
    pioneers := base.pioneers
    artists := base.artists
    works := base.works
    source := combined_source
    bpm := base.bpm
    time_signature := base.time_signature }

/-- `DuplicateDetector.merge_duplicates(genres)`: star clustering around the
first unprocessed entry.  The index-based Python loop is embedded as a
recursion on the list: the head is the next unprocessed entry, the entries
of the tail judged similar to it form its group (and are removed), and the
rest is processed recursively.  (The trailing Python loop that would
re-append unprocessed entries is unreachable — every index is added to
`processed` either as a group leader or as an absorbed member — and so has
no counterpart here.) -/
def merge_duplicates (fz : Option (String → String → Bool)) :
    List Genre → List Genre
  | [] => []
  | g1 :: rest =>
    let grp := rest.filter (fun g2 => are_similar fz g1 g2)
    let out := if grp.isEmpty then g1 else merge_genre_group g1 grp
    out :: merge_duplicates fz (rest.filter (fun g2 => !(are_similar fz g1 g2)))
termination_by l => l.length
decreasing_by
  exact Nat.lt_succ_of_le (List.length_filter_le _ _)

end DuplicateDetector

section MetadataEnricher

/-- `MetadataEnricher.period_rules`: the era → period-range table, in the
insertion order of the Python dict literal. -/
def period_rules : List (String × String) :=
  [("Ancient", "3000BC-500AD"),
   ("Medieval", "500-1400"),
   ("Renaissance", "1400-1600"),
   ("Baroque", "1600-1750"),
   ("Classical", "1750-1820"),
   ("Romantic", "1820-1900"),
   ("Modern", "1900-2000"),
   ("Contemporary", "2000-now"),
   ("Electronic", "1960-now"),
   ("Digital", "1990-now"),
   ("Prehistoric", "40000BC-3000BC")]

/-- The electronic-ish keywords of `_infer_period`'s first fallback. -/
def electronicTerms : List String := ["electronic", "synth", "digital", "cyber"]

/-- The traditional-ish keywords of `_infer_period`'s second fallback. -/
def traditionalTerms : List String := ["traditional", "folk", "ethnic"]

/-- The classical-ish keywords of `_infer_period`'s third fallback. -/
def classicalTerms : List String := ["classical", "baroque", "romantic"]

/-- `MetadataEnricher._infer_period(genre_name)`: return the period of the
first era of `period_rules` whose lower-cased name is a substring of the
lower-cased genre name; otherwise fall through the three keyword buckets;
otherwise `"1950-now"`. -/
def infer_period (genre_name : String) : String :=
  match period_rules.find? (fun er => strContains (pyLower genre_name) (pyLower er.1)) with
  | some er => er.2
  | none =>
    if electronicTerms.any (fun t => strContains (pyLower genre_name) t) then "1980-now"
    else if traditionalTerms.any (fun t => strContains (pyLower genre_name) t) then "1800-now"
    else if classicalTerms.any (fun t => strContains (pyLower genre_name) t) then "1600-1900"
    else "1950-now"

/-- The emerging keywords of `_infer_status`. -/
def emergingTerms : List String := ["emerging", "new", "future"]

/-- `MetadataEnricher._infer_status(genre_name, period)`: `"X"` for extinct
names or periods ending `"1900"`, else `"E"` for emerging keywords, else
`"A"` for periods ending `"now"`, else `"H"`. -/
def infer_status (genre_name period : String) : String :=
  if strContains (pyLower genre_name) "extinct" || strEndsWith period "1900" then "X"
  else if emergingTerms.any (fun t => strContains (pyLower genre_name) t) then "E"
  else if strEndsWith period "now" then "A"
  else "H"

end MetadataEnricher

section QualityAssurance

/-- `validation_rules['max_name_length']` from the default configuration. -/
def max_name_length : Nat := 100

/-- `validation_rules['period_format']` — a matcher for the anchored regex
`^\d{1,4}(BC)?-(\d{1,4}(AD)?|now)$`, evaluated on the character list
(the leading digit run may be taken maximally, since a shorter match would
have to be followed by a further digit where the regex requires `B` or
`-`). -/
def periodFormatMatch (period : String) : Bool :=
  let cs := period.toList
  let d1 := cs.takeWhile Char.isDigit
  let r1 := cs.dropWhile Char.isDigit
  if d1.length < 1 || 4 < d1.length then false
  else
    let r2 := if r1.take 2 = ['B', 'C'] then r1.drop 2 else r1
    match r2 with
    | '-' :: rest =>
      if rest = ['n', 'o', 'w'] then true
      else
        let d2 := rest.takeWhile Char.isDigit
        let r3 := rest.dropWhile Char.isDigit
        if d2.length < 1 || 4 < d2.length then false
        else decide (r3 = []) || decide (r3 = ['A', 'D'])
    | _ => false

/-- `QualityAssurance.validate_entry(genre)`: run all five checks in order,
appending one reason string per violated check (`errors.append(...)` for
each check in sequence is embedded as the concatenation of the five
per-check singleton-or-empty lists). -/
def validate_entry (genre : Genre) : List String :=
  (if max_name_length < genre.name.length then
      ["Name too long: " ++ toString genre.name.length ++ " chars"] else [])
  ++ (if !(periodFormatMatch genre.period) then
      ["Invalid period format: " ++ genre.period] else [])
  ++ (if !(["A", "H", "E", "X"].contains genre.status) then
      ["Invalid status: " ++ genre.status] else [])
  ++ (if genre.level < 1 || 5 < genre.level then
      ["Invalid level: " ++ toString genre.level] else [])
  ++ (if 1 < genre.level && genre.parent_id.isNone then
      ["Missing parent_id for non-root genre"] else [])

end QualityAssurance

section DynamicGenreGenerator

/-- `data_sources['regions']` from the default configuration (27 entries). -/
def regions : List String :=
  ["USA", "UK", "Deutschland", "Frankreich", "Italien", "Spanien",
   "Japan", "Korea", "China", "Indien", "Brasilien", "Mexiko",
   "Argentinien", "Südafrika", "Nigeria", "Ägypten", "Australien",
   "Kanada", "Russland", "Türkei", "Polen", "Niederlande",
   "Schweden", "Norwegen", "Finnland", "Island", "Irland"]

/-- `data_sources['eras']` from the default configuration (10 entries). -/
def eras : List String :=
  ["Prehistoric", "Ancient", "Medieval", "Renaissance", "Baroque",
   "Classical", "Romantic", "Modern", "Contemporary", "Digital"]

/-- `data_sources['instruments']` from the default configuration (9 entries). -/
def instruments : List String :=
  ["Guitar/Gitarre", "Piano/Klavier", "Drums/Schlagzeug",
   "Synthesizer", "Violin/Violine", "Saxophone/Saxophon",
   "Trumpet/Trompete", "Electronic/Elektronisch", "Traditional"]

/-- `data_sources['base_genres']` from the default configuration (16 entries). -/
def base_genres : List String :=
  ["Blues", "Jazz", "Rock", "Electronic", "Hip-Hop",
   "Classical", "Folk", "Country", "Metal", "Pop", "Reggae",
   "Soul", "Funk", "Punk", "Ambient", "Experimental"]

/-- `modifiers['electronic']`. -/
def electronicModifiers : List String := ["Synth", "Digital", "Cyber", "Electro", "Techno"]

/-- `modifiers['traditional']`. -/
def traditionalModifiers : List String := ["Folk", "Traditional", "Ethnic", "Native", "Indigenous"]

/-- `modifiers['modern']`. -/
def modernModifiers : List String := ["New", "Modern", "Contemporary", "Post", "Neo"]

/-- `itertools.combinations(l, 2)`, in its order: all pairs with the first
element earlier in the list than the second. -/
def pairsComb {α : Type} : List α → List (α × α)
  | [] => []
  | x :: xs => xs.map (fun y => (x, y)) ++ pairsComb xs

/-- The two candidates produced per `(r1, r2, base)` by strategy 1, from the
first two `regional_fusion` patterns `'{region1} {region2} Fusion'` and
`'{region1}-{region2} {base} Hybrid'`. -/
def regionalFusionCands (r1 r2 base : String) : List Candidate :=
  [{ name := r1 ++ " " ++ r2 ++ " Fusion",
     type := "regional_fusion", components := [r1, r2, base] },
   { name := r1 ++ "-" ++ r2 ++ " " ++ base ++ " Hybrid",
     type := "regional_fusion", components := [r1, r2, base] }]

/-- Every candidate strategy 1 (regional fusions) can produce, in iteration
order: pairs from `regions[:15]` × `base_genres[:10]` × the first two
patterns.  The `limit` early exit is applied by `earlyAppend` below. -/
def strategy1Cands : List Candidate :=
  ((pairsComb (regions.take 15)).map (fun p =>
    ((base_genres.take 10).map (fun base => regionalFusionCands p.1 p.2 base)).flatten)).flatten

/-- The four candidates produced per `(era, base)` by strategy 2, from the
`era_genre` patterns `'{era} {base}'`, `'Neo-{era} {base}'`,
`'{era} Revival {base}'` and `'Post-{era} {base}'`. -/
def eraVariantCands (era base : String) : List Candidate :=
  [{ name := era ++ " " ++ base, type := "era_variant", components := [era, base] },
   { name := "Neo-" ++ era ++ " " ++ base, type := "era_variant", components := [era, base] },
   { name := era ++ " Revival " ++ base, type := "era_variant", components := [era, base] },
   { name := "Post-" ++ era ++ " " ++ base, type := "era_variant", components := [era, base] }]

/-- Strategy 2 (era-based variants): full cross product of `eras` ×
`base_genres` × the four `era_genre` patterns, no limit check. -/
def strategy2Cands : List Candidate :=
  (eras.map (fun era => (base_genres.map (fun base => eraVariantCands era base)).flatten)).flatten

/-- `instrument.split('/')[0]`: the characters before the first `'/'`. -/
def instrumentHead (instr : String) : String :=
  ⟨instr.toList.takeWhile (fun c => c ≠ '/')⟩

/-- The two candidates produced per `(instrument, base)` by strategy 3, from
the first two `instrument_based` patterns `'{instrument} {base}'` and
`'Electric {instrument} {base}'` (the pattern receives
`instrument.split('/')[0]`, the `components` record the full token). -/
def instrumentCands (instr base : String) : List Candidate :=
  [{ name := instrumentHead instr ++ " " ++ base,
     type := "instrument_based", components := [instr, base] },
   { name := "Electric " ++ instrumentHead instr ++ " " ++ base,
     type := "instrument_based", components := [instr, base] }]

/-- Strategy 3 (instrument-specific genres): `instruments[:10]` ×
`base_genres[:10]` × the first two patterns, no limit check. -/
def strategy3Cands : List Candidate :=
  ((instruments.take 10).map (fun instr =>
    ((base_genres.take 10).map (fun base => instrumentCands instr base)).flatten)).flatten

/-- Strategy 4 (modifier variants) for one base genre: every electronic
modifier (unconditionally), then every traditional modifier crossed with
`regions[:10]`. -/
def modifierCands (base : String) : List Candidate :=
  electronicModifiers.map (fun m =>
    { name := m ++ " " ++ base, type := "electronic_variant", components := [m, base] })
  ++ (traditionalModifiers.map (fun m =>
        (regions.take 10).map (fun r =>
          { name := r ++ " " ++ m ++ " " ++ base,
            type := "traditional_variant", components := [r, m, base] }))).flatten

/-- Strategy 4 over all base genres, no limit check. -/
def strategy4Cands : List Candidate :=
  (base_genres.map modifierCands).flatten

/-- One iteration's worth of random draws for strategy 5 (micro-genres):
the three inclusion coin flips (`random.random() > p`) and the four
`random.choice` draws, the latter as indices reduced modulo the list
length. -/
structure MicroRand where
  useModern : Bool
  modernIdx : Nat
  useRegion : Bool
  regionIdx : Nat
  useElectronic : Bool
  electronicIdx : Nat
  baseIdx : Nat
deriving Repr

/-- `random.choice(l)` given a drawn index. -/
def pick (l : List String) (i : Nat) : String := l.getD (i % l.length) ""

/-- One strategy-5 candidate: probabilistically a modern modifier, a region
from `regions[:20]`, an electronic modifier, and always a base genre;
tokens space-joined in selection order, `components` the same tokens. -/
def microGenreCand (r : MicroRand) : Candidate :=
  let components :=
    (if r.useModern then [pick modernModifiers r.modernIdx] else [])
    ++ (if r.useRegion then [pick (regions.take 20) r.regionIdx] else [])
    ++ (if r.useElectronic then [pick electronicModifiers r.electronicIdx] else [])
    ++ [pick base_genres r.baseIdx]
  { name := String.intercalate " " components,
    type := "micro_genre", components := components }

/-- The `limit` early exit of strategy 1: append candidates one at a time;
after each append, if `len(generated) >= limit`, return immediately
(the Boolean records whether the early `return generated` fired). -/
def earlyAppend (limit : Nat) (acc : List Candidate) :
    List Candidate → List Candidate × Bool
  | [] => (acc, false)
  | c :: cs =>
    let acc' := acc ++ [c]
    if limit ≤ acc'.length then (acc', true)
    else earlyAppend limit acc' cs

/-- `DynamicGenreGenerator.generate_combinations(limit)`: strategy 1 with
its per-append early exit; if it did not fire, strategies 2–4 in full, then
up to `min(3000, limit - len(generated))` micro-genres, then truncation to
`limit`.  `rnd` supplies strategy 5's random draws. -/
def generate_combinations (rnd : Nat → MicroRand) (limit : Nat) : List Candidate :=
  match earlyAppend limit [] strategy1Cands with
  | (generated, true) => generated
  | (generated, false) =>
    let generated := generated ++ strategy2Cands ++ strategy3Cands ++ strategy4Cands
    let generated := generated ++
      (List.range (min 3000 (limit - generated.length))).map (fun i => microGenreCand (rnd i))
    generated.take limit

end DynamicGenreGenerator

section HierarchyBuilder

/-- The `main_genres` list of level-1 root categories seeded by
`HierarchyBuilder.build_hierarchy` (20 entries). -/
def main_genres : List String :=
  ["Blues", "Jazz", "Rock", "Electronic", "Hip-Hop", "Classical",
   "Folk", "Country", "Metal", "Pop", "Reggae", "Soul", "Funk",
   "Punk", "Ambient", "Experimental", "World Music", "Latin",
   "R&B", "Gospel"]

/-- Dict lookup on an association list whose most recent binding comes
first (`parent_map[name]` / `level_map.get(id, default)`). -/
def alistFind {α : Type} [DecidableEq α] {β : Type} (m : List (α × β)) (k : α) : Option β :=
  (m.find? (fun p => p.1 = k)).map (fun p => p.2)

/-- Modelled from the spec: `HierarchyBuilder._determine_parent` is called
from `build_hierarchy` but is absent from the source under `src/` (only its
call site exists).  Per the spec (§4.3), the parent is resolved "by matching
candidate tokens against the parent-lookup map … source resolves by
component-to-known-name matching; if no match, treat as a new
level-1-adjacent orphan": the id of the first component token registered in
`parent_map`, or `none`. -/
def determine_parent (combo : Candidate) (parent_map : List (String × Nat)) : Option Nat :=
  (combo.components.filterMap (fun c => alistFind parent_map c)).head?

/-- `HierarchyBuilder._determine_level_advanced(combo, level_map, parent_id)`:
level 1 for orphans, otherwise a type/component-count table of
`min(parent_level + k, cap)` branches with caps 2, 3, 4 and 5
(`level_map.get(parent_id, 1)` supplies the parent's level). -/
def determine_level_advanced (combo : Candidate) (level_map : List (Nat × Nat))
    (parent_id : Option Nat) : Nat :=
  match parent_id with
  | none => 1
  | some pid =>
    let parent_level := (alistFind level_map pid).getD 1
    let components := combo.components
    if (combo.type = "era_variant" ∨ combo.type = "regional_fusion")
        ∧ components.length ≤ 2 then
      min (parent_level + 1) 2
    else if (combo.type = "instrument_based" ∨ combo.type = "electronic_variant")
        ∧ components.length ≤ 3 then
      min (parent_level + 1) 3
    else if (combo.type = "traditional_variant" ∨ combo.type = "micro_genre")
        ∧ components.length ≤ 4 then
      min (parent_level + 2) 4
    else
      min (parent_level + 2) 5

/-- Stable insertion into a list sorted by ascending component count
(a new element goes after all elements with component count ≤ its own). -/
def insertByComponents (c : Candidate) : List Candidate → List Candidate
  | [] => [c]
  | d :: ds =>
    if d.components.length ≤ c.components.length then d :: insertByComponents c ds
    else c :: d :: ds

/-- `sorted(genre_combinations, key=lambda x: len(x['components']))`:
a stable sort by ascending component count (insertion sort). -/
def sortByComponents (l : List Candidate) : List Candidate :=
  l.foldr insertByComponents []

/-- The running state of `build_hierarchy`: the id counter, `parent_map`
(name → id), `level_map` (id → level) and the accumulated genre list. -/
structure BuildState where
  counter : Nat
  parent_map : List (String × Nat)
  level_map : List (Nat × Nat)
  genres : List Genre
deriving Repr

/-- Building one `Genre` from an id, name (already truncated where the code
truncates), level, parent and the enriched metadata (`Genre(id=…, …,
**metadata)`). -/
def mkGenre (id : Nat) (name : String) (level : Nat) (parent_id : Option Nat)
    (md : Metadata) : Genre :=
  { id := id, name := name, level := level, parent_id := parent_id,
    region := md.region, language := md.language, period := md.period,
    status := md.status, instruments := md.instruments,
    pioneers := md.pioneers, artists := md.artists, works := md.works,
    source := md.source, bpm := md.bpm, time_signature := md.time_signature }

/-- Phase 1 of `build_hierarchy` for one root category: assign the next id,
level 1, no parent, and register the name and level in the lookup maps. -/
def seedMainGenre (enrich : String → String → Metadata) (st : BuildState)
    (mg : String) : BuildState :=
  let g := mkGenre st.counter mg 1 none (enrich mg "main")
  { counter := st.counter + 1,
    parent_map := (mg, g.id) :: st.parent_map,
    level_map := (g.id, 1) :: st.level_map,
    genres := st.genres ++ [g] }

/-- Phase 2 of `build_hierarchy` for one sorted candidate: resolve the
parent, compute the level, and emit the entry (name truncated to 100
characters) unless the level exceeds 5. -/
def addCombo (enrich : String → String → Metadata) (st : BuildState)
    (combo : Candidate) : BuildState :=
  let parent_id := determine_parent combo st.parent_map
  let level := determine_level_advanced combo st.level_map parent_id
  if level ≤ 5 then
    let g := mkGenre st.counter (combo.name.take 100) level parent_id
      (enrich combo.name combo.type)
    { counter := st.counter + 1,
      parent_map := (combo.name, g.id) :: st.parent_map,
      level_map := (g.id, level) :: st.level_map,
      genres := st.genres ++ [g] }
  else st

/-- `HierarchyBuilder.build_hierarchy(genre_combinations, enricher)` on a
fresh builder (id counter starting at 1): seed the 20 root categories as
level-1 entries, then process the candidates sorted by ascending component
count.  The enricher's `generate_realistic_metadata(name, type)` is the
injected attribute function `enrich`. -/
def build_hierarchy (enrich : String → String → Metadata)
    (genre_combinations : List Candidate) : List Genre :=
  let st0 : BuildState := { counter := 1, parent_map := [], level_map := [], genres := [] }
  let st1 := main_genres.foldl (seedMainGenre enrich) st0
  let sorted_combos := sortByComponents genre_combinations
  (sorted_combos.foldl (addCombo enrich) st1).genres

end HierarchyBuilder

section SpecificationSide

/-- The spec's statement of the merge policy for `source`: the distinct
member sources, in order of first appearance (left fold that appends each
source not yet seen). -/
def specFirstDistinct (l : List String) : List String :=
  l.foldl (fun acc s => if s ∈ acc then acc else acc ++ [s]) []

/-- The claim's synonym table: uk↔british, german↔deutsch, french↔français,
american↔us, each pair applied in both directions. -/
def claimSynonymPairs : List (String × String) :=
  [("uk", "british"), ("british", "uk"),
   ("german", "deutsch"), ("deutsch", "german"),
   ("french", "français"), ("français", "french"),
   ("american", "us"), ("us", "american")]

/-- The synonym table the code actually contains: as `claimSynonymPairs`
but without the `français → french` direction (the dict literal has no
`'français'` key). -/
def codeSynonymPairs : List (String × String) :=
  [("uk", "british"), ("british", "uk"),
   ("german", "deutsch"), ("deutsch", "german"),
   ("french", "français"),
   ("american", "us"), ("us", "american")]

/-- The claim's lexical-variant test, parameterized by a synonym table:
lower-case both names, tokenize on whitespace into word sets, add `b` to a
set for every table pair `(a, b)` whose `a` is in the set, and judge the
names similar exactly when the intersection is at least 70% of either
post-expansion word set's size. -/
def specAreVariants (table : List (String × String)) (name1 name2 : String) : Bool :=
  let expand : Finset String → Finset String := fun ws =>
    ws ∪ ((table.filter (fun p => decide (p.1 ∈ ws))).map Prod.snd).toFinset
  let words1 := expand (wordSet name1)
  let words2 := expand (wordSet name2)
  let common := words1 ∩ words2
  decide (7 * words1.card ≤ 10 * common.card) ||
  decide (7 * words2.card ≤ 10 * common.card)

/-- A fixed (degenerate) draw for the micro-genre random stream, used to
instantiate universally quantified statements at a concrete input. -/
def mr0 : MicroRand :=
  { useModern := false, modernIdx := 0, useRegion := false, regionIdx := 0,
    useElectronic := false, electronicIdx := 0, baseIdx := 0 }

/-- A concrete well-formed genre entry, used to instantiate universally
quantified statements at a concrete input. -/
def sampleGenre : Genre :=
  { id := 1, name := "Jazz", level := 1, parent_id := none,
    region := "USA", language := "EN", period := "1900-now", status := "A",
    instruments := "Saxophone", pioneers := "p", artists := "a",
    works := "w", source := "Generated", bpm := "60-180",
    time_signature := "4/4" }

/-- `sampleGenre` renamed to `"UK Hip-Hop"`, for witness instantiation. -/
def sampleGenreUK : Genre :=
  { sampleGenre with id := 2, name := "UK Hip-Hop" }

/-- `sampleGenre` renamed to `"British Hip-Hop"`, for witness instantiation. -/
def sampleGenreBritish : Genre :=
  { sampleGenre with id := 3, name := "British Hip-Hop" }

/-- An entry with `level = 6`, for witness instantiation of the validator
claims. -/
def sampleGenreLevel6 : Genre :=
  { sampleGenre with id := 4, level := 6, parent_id := some 1 }

/-- An entry with `level = 3` and no parent, for witness instantiation of
the validator claims. -/
def sampleGenreOrphan : Genre :=
  { sampleGenre with id := 5, level := 3, parent_id := none }

/-- A concrete candidate, for witness instantiation. -/
def sampleCandidate : Candidate :=
  { name := "Baroque Jazz", type := "era_variant", components := ["Baroque", "Jazz"] }

end SpecificationSide

/-! ## Supporting lemmas -/

/-- The integer form of the 70% test used in `are_variants` agrees with the
rational statement `n * 0.7 ≤ c`. -/
theorem ratio_ge_70_iff (c n : ℕ) : 7 * n ≤ 10 * c ↔ (n : ℚ) * 0.7 ≤ (c : ℚ) := by
  rw [show (0.7 : ℚ) = 7 / 10 by norm_num]
  rw [mul_div_assoc', div_le_iff₀ (by norm_num : (0:ℚ) < 10)]
  constructor
  · intro h
    calc ((n : ℚ) * 7) = ((7 * n : ℕ) : ℚ) := by push_cast; ring
    _ ≤ ((10 * c : ℕ) : ℚ) := by exact_mod_cast h
    _ = (c : ℚ) * 10 := by push_cast; ring
  · intro h
    have h10 : ((7 * n : ℕ) : ℚ) ≤ ((10 * c : ℕ) : ℚ) := by push_cast at h ⊢; linarith
    exact_mod_cast h10

/-- Length of a conditional singleton, as produced by one validator check. -/
theorem length_ite_singleton (c : Prop) [Decidable c] (x : String) :
    (if c then [x] else ([] : List String)).length = if c then 1 else 0 := by
  split_ifs <;> rfl

/-- Generalized correspondence between `pyDedup` (the embedding of
`dict.fromkeys`) and the spec-side first-appearance fold. -/
theorem specFirstDistinct_fold_eq (l : List String) : ∀ acc : List String,
    l.foldl (fun acc s => if s ∈ acc then acc else acc ++ [s]) acc
      = acc ++ pyDedup (l.filter (fun y => !decide (y ∈ acc))) := by
  induction l with
  | nil => intro acc; simp [pyDedup]
  | cons x xs ih =>
    intro acc
    by_cases hx : x ∈ acc
    · rw [List.foldl_cons, if_pos hx, ih acc, List.filter_cons_of_neg]
      simp [hx]
    · rw [List.foldl_cons, if_neg hx, ih (acc ++ [x]),
        List.filter_cons_of_pos (by simp [hx])]
      have hfilter : xs.filter (fun y => !decide (y ∈ acc ++ [x]))
          = (xs.filter (fun y => !decide (y ∈ acc))).filter (fun y => decide (y ≠ x)) := by
        rw [List.filter_filter]
        apply List.filter_congr
        intro a _
        by_cases h1 : a = x <;> by_cases h2 : a ∈ acc <;>
          simp [h1, h2, List.mem_append]
      rw [hfilter]
      conv_rhs => simp only [pyDedup]
      simp

/-- `pyDedup` computes exactly the spec's first-appearance deduplication. -/
theorem pyDedup_eq_specFirstDistinct (l : List String) :
    pyDedup l = specFirstDistinct l := by
  have h := specFirstDistinct_fold_eq l []
  simp only [List.not_mem_nil, decide_False, Bool.not_false, List.filter_true,
    List.nil_append] at h
  rw [specFirstDistinct, h]

/-! ## C5 — merge policy of `_merge_genre_group` -/

/-- C5: for every merge group (first member `base`, remaining members
`rest`), the merged entry keeps every field of `base` verbatim — id, name,
level, parent_id, region, language, period, status, instruments, pioneers,
artists, works, bpm, time_signature — and its `source` is exactly the first
3 distinct member sources, in order of first appearance within the group,
joined by `" / "`. -/
theorem merge_genre_group_spec (base : Genre) (rest : List Genre) :
    (merge_genre_group base rest).id = base.id ∧
    (merge_genre_group base rest).name = base.name ∧
    (merge_genre_group base rest).level = base.level ∧
    (merge_genre_group base rest).parent_id = base.parent_id ∧
    (merge_genre_group base rest).region = base.region ∧
    (merge_genre_group base rest).language = base.language ∧
    (merge_genre_group base rest).period = base.period ∧
    (merge_genre_group base rest).status = base.status ∧
    (merge_genre_group base rest).instruments = base.instruments ∧
    (merge_genre_group base rest).pioneers = base.pioneers ∧
    (merge_genre_group base rest).artists = base.artists ∧
    (merge_genre_group base rest).works = base.works ∧
    (merge_genre_group base rest).bpm = base.bpm ∧
    (merge_genre_group base rest).time_signature = base.time_signature ∧
    (merge_genre_group base rest).source =
      String.intercalate " / "
        ((specFirstDistinct (base.source :: rest.map Genre.source)).take 3) := by
  refine ⟨rfl, rfl, rfl, rfl, rfl, rfl, rfl, rfl, rfl, rfl, rfl, rfl, rfl, rfl, ?_⟩
  simp [merge_genre_group, pyDedup_eq_specFirstDistinct]

/-! ## C7 — status inference -/

/-- C7: `_infer_status` returns `"X"` when the name contains `"extinct"`
(case-insensitively) or the period ends with `"1900"`; otherwise `"E"` when
the name contains an emerging/new/future keyword; otherwise `"A"` when the
period ends with `"now"`; otherwise `"H"` — checked in exactly this priority
order, and the result is always one of the four status symbols. -/
theorem infer_status_spec (name period : String) :
    ((strContains (pyLower name) "extinct" || strEndsWith period "1900") = true →
        infer_status name period = "X") ∧
    ((strContains (pyLower name) "extinct" || strEndsWith period "1900") = false →
      (emergingTerms.any (fun t => strContains (pyLower name) t)) = true →
        infer_status name period = "E") ∧
    ((strContains (pyLower name) "extinct" || strEndsWith period "1900") = false →
      (emergingTerms.any (fun t => strContains (pyLower name) t)) = false →
      strEndsWith period "now" = true →
        infer_status name period = "A") ∧
    ((strContains (pyLower name) "extinct" || strEndsWith period "1900") = false →
      (emergingTerms.any (fun t => strContains (pyLower name) t)) = false →
      strEndsWith period "now" = false →
        infer_status name period = "H") ∧
    (infer_status name period = "X" ∨ infer_status name period = "E" ∨
     infer_status name period = "A" ∨ infer_status name period = "H") := by
  refine ⟨?_, ?_, ?_, ?_, ?_⟩
  · intro h1
    simp [infer_status, h1]
  · intro h1 h2
    simp [infer_status, h1, h2]
  · intro h1 h2 h3
    simp [infer_status, h1, h2, h3]
  · intro h1 h2 h3
    simp [infer_status, h1, h2, h3]
  · unfold infer_status
    split_ifs <;> simp

/-- Witness for C7 at a concrete input: `"Dark Jazz"` over `"1950-now"` is
neither extinct nor emerging and its period ends `"now"`, so its status is
`"A"`. -/
theorem infer_status_spec_witness : infer_status "Dark Jazz" "1950-now" = "A" :=
  (infer_status_spec "Dark Jazz" "1950-now").2.2.1 (by decide) (by decide) (by decide)

/-! ## C6 — period inference -/

/-- `List.find?` returns the element at the first index whose predicate
holds. -/
theorem find?_eq_get_of_first {α : Type} {p : α → Bool} :
    ∀ (l : List α) (i : Nat) (h : i < l.length),
      p (l.get ⟨i, h⟩) = true →
      (∀ j (hj : j < i), p (l.get ⟨j, Nat.lt_trans hj h⟩) = false) →
      l.find? p = some (l.get ⟨i, h⟩) := by
  intro l
  induction l with
  | nil => intro i h; simp at h
  | cons x xs ih =>
    intro i h hp hmin
    match i with
    | 0 =>
      have hp0 : p x = true := hp
      rw [List.find?_cons_of_pos _ hp0]
      rfl
    | k + 1 =>
      have hx : p x = false := hmin 0 (Nat.succ_pos k)
      rw [List.find?_cons_of_neg _ (by simp [hx])]
      exact ih k (Nat.lt_of_succ_lt_succ h) hp
        (fun j hj => hmin (j + 1) (Nat.succ_lt_succ hj))

/-- C6: `_infer_period` returns the period of the first era of the fixed
`period_rules` table (scanned in its order) whose name occurs
case-insensitively as a substring of the genre name; when no era matches it
falls back to the electronic-ish / traditional-ish / classical-ish keyword
buckets and finally to the default `"1950-now"`; in particular
`infer_period "Baroque Jazz Fusion" = "1600-1750"`. -/
theorem infer_period_spec (name : String) :
    (∀ i (h : i < period_rules.length),
        strContains (pyLower name) (pyLower (period_rules.get ⟨i, h⟩).1) = true →
        (∀ j (hj : j < i),
          strContains (pyLower name)
            (pyLower (period_rules.get ⟨j, Nat.lt_trans hj h⟩).1) = false) →
        infer_period name = (period_rules.get ⟨i, h⟩).2) ∧
    ((∀ er ∈ period_rules, strContains (pyLower name) (pyLower er.1) = false) →
        infer_period name =
          (if electronicTerms.any (fun t => strContains (pyLower name) t) then "1980-now"
           else if traditionalTerms.any (fun t => strContains (pyLower name) t) then "1800-now"
           else if classicalTerms.any (fun t => strContains (pyLower name) t) then "1600-1900"
           else "1950-now")) ∧
    infer_period "Baroque Jazz Fusion" = "1600-1750" := by
  refine ⟨?_, ?_, by decide⟩
  · intro i h hp hmin
    unfold infer_period
    rw [find?_eq_get_of_first period_rules i h hp hmin]
  · intro hall
    unfold infer_period
    rw [List.find?_eq_none.mpr]
    intro er her
    simp [hall er her]

/-- Witness for C6 at a concrete input: `"Romantic"` is era index 5 of the
table, no earlier era name occurs in `"Neo-Romantic Pop"`, and the returned
period is the table's `"1820-1900"`. -/
theorem infer_period_spec_witness : infer_period "Neo-Romantic Pop" = "1820-1900" :=
  (infer_period_spec "Neo-Romantic Pop").1 5 (by decide) (by decide)
    (by decide)

/-! ## C8 — per-entry validation -/

/-- C8: `validate_entry` evaluates all five checks (name length ≤ 100,
period format, status ∈ {A, H, E, X}, level ∈ [1, 5], and level > 1 →
parent_id set) independently without short-circuiting: the number of
returned reasons equals the number of violated checks, and each violated
check contributes its reason to the list.  In particular an entry with
`level = 6` yields a non-empty list containing the level-range complaint,
and an entry with `level = 3` and `parent_id = none` yields the
missing-parent complaint. -/
theorem validate_entry_spec (genre : Genre) :
    ((validate_entry genre).length =
      (if 100 < genre.name.length then 1 else 0)
        + (if periodFormatMatch genre.period = false then 1 else 0)
        + (if genre.status ∉ (["A", "H", "E", "X"] : List String) then 1 else 0)
        + (if genre.level < 1 ∨ 5 < genre.level then 1 else 0)
        + (if 1 < genre.level ∧ genre.parent_id = none then 1 else 0)) ∧
    (100 < genre.name.length →
      ("Name too long: " ++ toString genre.name.length ++ " chars") ∈ validate_entry genre) ∧
    (periodFormatMatch genre.period = false →
      ("Invalid period format: " ++ genre.period) ∈ validate_entry genre) ∧
    (genre.status ∉ (["A", "H", "E", "X"] : List String) →
      ("Invalid status: " ++ genre.status) ∈ validate_entry genre) ∧
    (genre.level < 1 ∨ 5 < genre.level →
      ("Invalid level: " ++ toString genre.level) ∈ validate_entry genre) ∧
    (genre.level = 6 →
      validate_entry genre ≠ [] ∧
      ("Invalid level: " ++ toString genre.level) ∈ validate_entry genre) ∧
    (1 < genre.level ∧ genre.parent_id = none →
      "Missing parent_id for non-root genre" ∈ validate_entry genre) := by
  have hiff2 : ((!periodFormatMatch genre.period) = true) ↔
      (periodFormatMatch genre.period = false) := by simp
  have hiff3 : ((!(["A", "H", "E", "X"] : List String).contains genre.status) = true) ↔
      (genre.status ∉ (["A", "H", "E", "X"] : List String)) := by
    simp [List.contains, List.elem_eq_mem]
  have hiff4 : ((genre.level < 1 || 5 < genre.level) = true) ↔
      (genre.level < 1 ∨ 5 < genre.level) := by simp
  have hiff5 : ((1 < genre.level && genre.parent_id.isNone) = true) ↔
      (1 < genre.level ∧ genre.parent_id = none) := by
    simp [Option.isNone_iff_eq_none]
  have hmem1 : 100 < genre.name.length →
      ("Name too long: " ++ toString genre.name.length ++ " chars") ∈ validate_entry genre := by
    intro h
    unfold validate_entry max_name_length
    exact List.mem_append_left _ (List.mem_append_left _ (List.mem_append_left _
      (List.mem_append_left _ (by rw [if_pos h]; exact List.mem_singleton_self _))))
  have hmem2 : periodFormatMatch genre.period = false →
      ("Invalid period format: " ++ genre.period) ∈ validate_entry genre := by
    intro h
    unfold validate_entry max_name_length
    exact List.mem_append_left _ (List.mem_append_left _ (List.mem_append_left _
      (List.mem_append_right _
        (by rw [if_pos (hiff2.mpr h)]; exact List.mem_singleton_self _))))
  have hmem3 : genre.status ∉ (["A", "H", "E", "X"] : List String) →
      ("Invalid status: " ++ genre.status) ∈ validate_entry genre := by
    intro h
    unfold validate_entry max_name_length
    exact List.mem_append_left _ (List.mem_append_left _ (List.mem_append_right _
      (by rw [if_pos (hiff3.mpr h)]; exact List.mem_singleton_self _)))
  have hmem4 : genre.level < 1 ∨ 5 < genre.level →
      ("Invalid level: " ++ toString genre.level) ∈ validate_entry genre := by
    intro h
    unfold validate_entry max_name_length
    exact List.mem_append_left _ (List.mem_append_right _
      (by rw [if_pos (hiff4.mpr h)]; exact List.mem_singleton_self _))
  have hmem5 : 1 < genre.level ∧ genre.parent_id = none →
      "Missing parent_id for non-root genre" ∈ validate_entry genre := by
    intro h
    unfold validate_entry max_name_length
    exact List.mem_append_right _
      (by rw [if_pos (hiff5.mpr h)]; exact List.mem_singleton_self _)
  refine ⟨?_, hmem1, hmem2, hmem3, hmem4, ?_, hmem5⟩
  · unfold validate_entry max_name_length
    simp only [List.length_append, length_ite_singleton, hiff2, hiff3, hiff4, hiff5]
  · intro h
    have hv : genre.level < 1 ∨ 5 < genre.level := by omega
    exact ⟨List.ne_nil_of_mem (hmem4 hv), hmem4 hv⟩

/-- Witness for C8 at concrete inputs: the level-6 entry yields a non-empty
violation list containing the level-range complaint, and the parentless
level-3 entry yields the missing-parent complaint. -/
theorem validate_entry_spec_witness :
    (validate_entry sampleGenreLevel6 ≠ [] ∧
      ("Invalid level: " ++ toString sampleGenreLevel6.level) ∈
        validate_entry sampleGenreLevel6) ∧
    "Missing parent_id for non-root genre" ∈ validate_entry sampleGenreOrphan :=
  ⟨(validate_entry_spec sampleGenreLevel6).2.2.2.2.2.1 rfl,
   (validate_entry_spec sampleGenreOrphan).2.2.2.2.2.2 ⟨by decide, rfl⟩⟩

/-! ## C3 — lexical-variant similarity -/

/-- The code's `synonyms` lookup succeeds exactly on the seven directed
pairs its dict literal contains. -/
theorem synonyms_eq_codePairs (w x : String) :
    synonyms w = some x ↔ (w, x) ∈ codeSynonymPairs := by
  unfold synonyms codeSynonymPairs
  split_ifs with h1 h2 h3 h4 h5 h6 h7 <;> subst_vars <;>
    simp_all [Prod.ext_iff, eq_comm]

/-- The code's synonym expansion equals the pair-table expansion over the
seven directed pairs actually present in the dict. -/
theorem expandSynonyms_eq_codePairs (ws : Finset String) :
    expandSynonyms ws
      = ws ∪ ((codeSynonymPairs.filter (fun p => decide (p.1 ∈ ws))).map Prod.snd).toFinset := by
  unfold expandSynonyms
  congr 1
  ext x
  simp only [Finset.mem_biUnion, Option.mem_toFinset, Option.mem_def,
    List.mem_toFinset, List.mem_map, List.mem_filter, decide_eq_true_eq]
  constructor
  · rintro ⟨w, hw, hsyn⟩
    exact ⟨(w, x), ⟨(synonyms_eq_codePairs w x).mp hsyn, hw⟩, rfl⟩
  · rintro ⟨⟨a, b⟩, ⟨hmem, ha⟩, hb⟩
    exact ⟨a, ha, (synonyms_eq_codePairs a x).mpr (hb ▸ hmem)⟩

/-- Counterexample to C3: the claim's synonym table maps français↔french in
both directions; the code's dict has no `'français'` key.  On the names
`"français hop rap"` and `"french hop beat style"` the claim's algorithm
judges the names similar, the code does not. -/
theorem are_variants_counterexample :
    specAreVariants claimSynonymPairs "français hop rap" "french hop beat style" = true ∧
    are_variants "français hop rap" "french hop beat style" = false := by
  constructor <;> decide

/-- C3 (amended): `_are_variants` lower-cases both names, tokenizes them on
whitespace into word sets, expands each with the synonym table applied as
the dict literal directs — uk↔british, german↔deutsch, american↔us in both
directions, but french→français in one direction only (`'français'` is not
a key) — and judges the names similar exactly when the intersection is at
least 70% of either post-expansion word set's size; in particular
`"UK Hip-Hop"` and `"British Hip-Hop"` are judged similar. -/
theorem are_variants_eq_spec (name1 name2 : String) :
    are_variants name1 name2 = specAreVariants codeSynonymPairs name1 name2 ∧
    are_variants "UK Hip-Hop" "British Hip-Hop" = true := by
  refine ⟨?_, by decide⟩
  unfold are_variants specAreVariants
  rw [expandSynonyms_eq_codePairs (wordSet name1),
    expandSynonyms_eq_codePairs (wordSet name2)]

/-! ## C9 — symmetry of `_are_similar` -/

/-- The lexical-variant heuristic is symmetric: intersection and the
either-side ratio disjunction are symmetric in the two names. -/
theorem are_variants_symm (name1 name2 : String) :
    are_variants name1 name2 = are_variants name2 name1 := by
  simp only [are_variants]
  rw [Finset.inter_comm]
  exact Bool.or_comm _ _

/-- `_are_similar` as the disjunction of its three tests. -/
theorem are_similar_eq_or (fz : Option (String → String → Bool)) (g1 g2 : Genre) :
    are_similar fz g1 g2 =
      (decide (pyLower g1.name = pyLower g2.name) ||
       fuzzyVerdict fz (pyLower g1.name) (pyLower g2.name) ||
       are_variants g1.name g2.name) := by
  unfold are_similar
  split_ifs with h1 h2 h3 <;> simp_all

/-- C9: `_are_similar` is symmetric, with the availability of the fuzzy
backend held fixed: case-insensitive name equality, the (symmetric)
thresholded Jaro–Winkler backend verdict, and the lexical-variant rule each
give the same verdict with the arguments swapped. -/
theorem are_similar_symmetric (fz : Option (String → String → Bool))
    (hsym : ∀ jw, fz = some jw → ∀ a b, jw a b = jw b a) (g1 g2 : Genre) :
    are_similar fz g1 g2 = are_similar fz g2 g1 := by
  rw [are_similar_eq_or, are_similar_eq_or]
  have h1 : decide (pyLower g1.name = pyLower g2.name)
      = decide (pyLower g2.name = pyLower g1.name) := by
    simp [eq_comm]
  have h2 : fuzzyVerdict fz (pyLower g1.name) (pyLower g2.name)
      = fuzzyVerdict fz (pyLower g2.name) (pyLower g1.name) := by
    cases fz with
    | none => rfl
    | some jw => exact hsym jw rfl _ _
  rw [h1, h2, are_variants_symm]

/-- Witness for C9 at a concrete input (backend unavailable, two concrete
entries): the verdict is the same in both argument orders. -/
theorem are_similar_symmetric_witness :
    are_similar none sampleGenreUK sampleGenreBritish
      = are_similar none sampleGenreBritish sampleGenreUK :=
  are_similar_symmetric none (fun _ h => nomatch h) sampleGenreUK sampleGenreBritish

/-! ## C2 — idempotence of `merge_duplicates` -/

/-- Merging a group never changes the name: it is the first member's. -/
theorem merge_genre_group_name (base : Genre) (rest : List Genre) :
    (merge_genre_group base rest).name = base.name := rfl

/-- `_are_similar` reads only the two names: left argument congruence. -/
theorem are_similar_congr_left (fz : Option (String → String → Bool))
    {g1 g1' : Genre} (h : g1.name = g1'.name) (g2 : Genre) :
    are_similar fz g1 g2 = are_similar fz g1' g2 := by
  simp only [are_similar]
  rw [h]

/-- `_are_similar` reads only the two names: right argument congruence. -/
theorem are_similar_congr_right (fz : Option (String → String → Bool))
    (g1 : Genre) {g2 g2' : Genre} (h : g2.name = g2'.name) :
    are_similar fz g1 g2 = are_similar fz g1 g2' := by
  simp only [are_similar]
  rw [h]

/-- Every entry of `merge_duplicates`' output carries the name of some
input entry (group merges keep the leader's name, singletons pass
through). -/
theorem merge_duplicates_mem_names (fz : Option (String → String → Bool)) :
    ∀ (n : Nat) (l : List Genre), l.length ≤ n →
      ∀ x ∈ merge_duplicates fz l, ∃ y ∈ l, x.name = y.name := by
  intro n
  induction n with
  | zero =>
    intro l hl x hx
    have hnil : l = [] := List.length_eq_zero.mp (Nat.le_zero.mp hl)
    subst hnil
    simp [merge_duplicates] at hx
  | succ n ih =>
    intro l hl x hx
    match l with
    | [] => simp [merge_duplicates] at hx
    | g :: rest =>
      have hrest : rest.length ≤ n := by
        simpa using Nat.le_of_succ_le_succ hl
      simp only [merge_duplicates] at hx
      rcases List.mem_cons.mp hx with heq | hmem
      · refine ⟨g, List.mem_cons_self g rest, ?_⟩
        rw [heq]
        split_ifs <;> rfl
      · obtain ⟨y, hy, hname⟩ := ih (rest.filter (fun g2 => !(are_similar fz g g2)))
          (Nat.le_trans (List.length_filter_le _ _) hrest) x hmem
        exact ⟨y, List.mem_cons_of_mem g (List.mem_of_mem_filter hy), hname⟩

/-- Idempotence of `merge_duplicates`, by strong induction on the input
length: after one pass, all surviving entries are pairwise dissimilar (each
later leader was compared against each earlier one and was not absorbed),
so a second pass forms only singleton groups. -/
theorem merge_duplicates_idem_aux (fz : Option (String → String → Bool)) :
    ∀ (n : Nat) (l : List Genre), l.length ≤ n →
      merge_duplicates fz (merge_duplicates fz l) = merge_duplicates fz l := by
  intro n
  induction n with
  | zero =>
    intro l hl
    have hnil : l = [] := List.length_eq_zero.mp (Nat.le_zero.mp hl)
    subst hnil
    simp [merge_duplicates]
  | succ n ih =>
    intro l hl
    match l with
    | [] => simp [merge_duplicates]
    | g :: rest =>
      have hrest : rest.length ≤ n := by
        simpa using Nat.le_of_succ_le_succ hl
      have hrlen : (rest.filter (fun g2 => !(are_similar fz g g2))).length ≤ n :=
        Nat.le_trans (List.length_filter_le _ _) hrest
      have hM : merge_duplicates fz (g :: rest)
          = (if (rest.filter (fun g2 => are_similar fz g g2)).isEmpty then g
             else merge_genre_group g (rest.filter (fun g2 => are_similar fz g g2)))
            :: merge_duplicates fz (rest.filter (fun g2 => !(are_similar fz g g2))) := by
        simp only [merge_duplicates]
      have houtname :
          (if (rest.filter (fun g2 => are_similar fz g g2)).isEmpty then g
           else merge_genre_group g (rest.filter (fun g2 => are_similar fz g g2))).name
            = g.name := by
        split_ifs <;> rfl
      have hall : ∀ x ∈ merge_duplicates fz (rest.filter (fun g2 => !(are_similar fz g g2))),
          are_similar fz
            (if (rest.filter (fun g2 => are_similar fz g g2)).isEmpty then g
             else merge_genre_group g (rest.filter (fun g2 => are_similar fz g g2)))
            x = false := by
        intro x hx
        obtain ⟨y, hy, hxy⟩ := merge_duplicates_mem_names fz n
          (rest.filter (fun g2 => !(are_similar fz g g2))) hrlen x hx
        rw [are_similar_congr_left fz houtname x, are_similar_congr_right fz g hxy]
        have h3 := (List.mem_filter.mp hy).2
        simpa using h3
      have hgrpE : (merge_duplicates fz (rest.filter (fun g2 => !(are_similar fz g g2)))).filter
          (fun g2 => are_similar fz
            (if (rest.filter (fun g2 => are_similar fz g g2)).isEmpty then g
             else merge_genre_group g (rest.filter (fun g2 => are_similar fz g g2))) g2)
          = [] := by
        apply List.filter_eq_nil_iff.mpr
        intro a ha
        rw [hall a ha]
        simp
      have hkeep : (merge_duplicates fz (rest.filter (fun g2 => !(are_similar fz g g2)))).filter
          (fun g2 => !(are_similar fz
            (if (rest.filter (fun g2 => are_similar fz g g2)).isEmpty then g
             else merge_genre_group g (rest.filter (fun g2 => are_similar fz g g2))) g2))
          = merge_duplicates fz (rest.filter (fun g2 => !(are_similar fz g g2))) := by
        apply List.filter_eq_self.mpr
        intro a ha
        rw [hall a ha]
        simp
      rw [hM]
      simp only [merge_duplicates, hgrpE, hkeep]
      rw [ih (rest.filter (fun g2 => !(are_similar fz g g2))) hrlen]
      simp

/-- C2: duplicate merging is idempotent — for every entry list and with the
availability of the fuzzy-similarity backend held fixed, applying the
star-clustering merge a second time to its own output changes nothing. -/
theorem merge_duplicates_idempotent (fz : Option (String → String → Bool))
    (xs : List Genre) :
    merge_duplicates fz (merge_duplicates fz xs) = merge_duplicates fz xs :=
  merge_duplicates_idem_aux fz xs.length xs le_rfl

/-! ## C10 / C1 — level bounds and totality of hierarchy building -/

/-- Every branch of `_determine_level_advanced` yields a level in [1, 5]:
1 for orphans, and otherwise `min(parent_level + k, cap)` with caps 2–5. -/
theorem determine_level_bounds (combo : Candidate) (level_map : List (Nat × Nat))
    (parent_id : Option Nat) :
    1 ≤ determine_level_advanced combo level_map parent_id ∧
    determine_level_advanced combo level_map parent_id ≤ 5 := by
  cases parent_id with
  | none => simp [determine_level_advanced]
  | some pid =>
    simp only [determine_level_advanced]
    split_ifs <;> constructor <;> omega

/-- Phase 1 of `build_hierarchy` appends exactly one entry per root
category. -/
theorem seed_fold_genres_length (enrich : String → String → Metadata) :
    ∀ (l : List String) (st : BuildState),
      ((l.foldl (seedMainGenre enrich) st).genres).length = st.genres.length + l.length := by
  intro l
  induction l with
  | nil => intro st; simp
  | cons x xs ih =>
    intro st
    rw [List.foldl_cons, ih]
    simp only [seedMainGenre, List.length_append, List.length_cons,
      List.length_singleton, List.length_nil]
    omega

/-- Phase 2 of `build_hierarchy` appends exactly one entry per candidate:
the computed level never exceeds 5, so the `level <= 5` guard always
passes. -/
theorem addCombo_genres_length (enrich : String → String → Metadata)
    (st : BuildState) (c : Candidate) :
    ((addCombo enrich st c).genres).length = st.genres.length + 1 := by
  simp only [addCombo]
  rw [if_pos (determine_level_bounds c st.level_map
    (determine_parent c st.parent_map)).2]
  simp

/-- Folding phase 2 over any candidate list appends one entry each. -/
theorem combos_fold_genres_length (enrich : String → String → Metadata) :
    ∀ (l : List Candidate) (st : BuildState),
      ((l.foldl (addCombo enrich) st).genres).length = st.genres.length + l.length := by
  intro l
  induction l with
  | nil => intro st; simp
  | cons x xs ih =>
    intro st
    rw [List.foldl_cons, ih, addCombo_genres_length]
    simp only [List.length_cons]
    omega

/-- Stable insertion adds one element. -/
theorem insertByComponents_length (c : Candidate) :
    ∀ (l : List Candidate), (insertByComponents c l).length = l.length + 1 := by
  intro l
  induction l with
  | nil => rfl
  | cons d ds ih =>
    simp only [insertByComponents]
    split_ifs <;> simp [ih]

/-- Sorting by component count preserves the number of candidates. -/
theorem sortByComponents_length (l : List Candidate) :
    (sortByComponents l).length = l.length := by
  unfold sortByComponents
  induction l with
  | nil => rfl
  | cons x xs ih =>
    rw [List.foldr_cons, insertByComponents_length, ih]
    rfl

/-- `build_hierarchy` emits the 20 seeded roots plus one entry per
candidate: a helper shared by the totality and level-bound results. -/
theorem build_hierarchy_length (enrich : String → String → Metadata)
    (genre_combinations : List Candidate) :
    (build_hierarchy enrich genre_combinations).length
      = 20 + genre_combinations.length := by
  unfold build_hierarchy
  rw [combos_fold_genres_length, seed_fold_genres_length, sortByComponents_length]
  rfl

/-- C1: hierarchy building is total — for every candidate list (of any
size, well-formed or not: an empty name is carried through, to be rejected
only by the validator downstream) and every attribute function, it returns
a list of `Genre` entries, namely the 20 seeded roots plus one entry per
candidate, with no failure mode. -/
theorem build_hierarchy_no_failure (enrich : String → String → Metadata)
    (genre_combinations : List Candidate) :
    (build_hierarchy enrich genre_combinations).length
      = 20 + genre_combinations.length :=
  build_hierarchy_length enrich genre_combinations

/-- C10: for every candidate, every level map and every (possibly absent)
resolved parent id, the computed level lies in [1, 5] — it is 1 when no
parent is resolved, and otherwise every branch caps the result via `min` —
and consequently the `level <= 5` filter in `build_hierarchy` never
excludes any candidate: every candidate yields an entry. -/
theorem determine_level_advanced_spec :
    (∀ (combo : Candidate) (level_map : List (Nat × Nat)) (parent_id : Option Nat),
      (parent_id = none → determine_level_advanced combo level_map parent_id = 1) ∧
      1 ≤ determine_level_advanced combo level_map parent_id ∧
      determine_level_advanced combo level_map parent_id ≤ 5) ∧
    (∀ (enrich : String → String → Metadata) (combos : List Candidate),
      (build_hierarchy enrich combos).length = main_genres.length + combos.length) := by
  constructor
  · intro combo level_map parent_id
    refine ⟨?_, determine_level_bounds combo level_map parent_id⟩
    intro h
    subst h
    rfl
  · intro enrich combos
    rw [build_hierarchy_length]
    rfl

/-- Witness for C10 at concrete inputs: an orphan candidate gets level 1;
with a registered parent of level 1 the level stays within [1, 5]. -/
theorem determine_level_advanced_spec_witness :
    determine_level_advanced sampleCandidate [] none = 1 ∧
    1 ≤ determine_level_advanced sampleCandidate [(1, 1)] (some 1) ∧
    determine_level_advanced sampleCandidate [(1, 1)] (some 1) ≤ 5 :=
  ⟨(determine_level_advanced_spec.1 sampleCandidate [] none).1 rfl,
   (determine_level_advanced_spec.1 sampleCandidate [(1, 1)] (some 1)).2.1,
   (determine_level_advanced_spec.1 sampleCandidate [(1, 1)] (some 1)).2.2⟩

/-! ## C4 — generator limit behavior -/

/-- Length of a flattened map whose blocks all have the same length. -/
theorem length_flatten_map_const {α β : Type} (f : α → List β) (k : Nat)
    (l : List α) (h : ∀ a ∈ l, (f a).length = k) :
    ((l.map f).flatten).length = l.length * k := by
  induction l with
  | nil => simp
  | cons x xs ih =>
    simp only [List.map_cons, List.flatten_cons, List.length_append,
      List.length_cons, h x (List.mem_cons_self x xs),
      ih (fun a ha => h a (List.mem_cons_of_mem x ha))]
    ring

/-- Strategy 1 can produce 2100 candidates: C(15,2) pairs × 10 bases × 2
patterns. -/
theorem strategy1Cands_length : strategy1Cands.length = 2100 := by
  unfold strategy1Cands
  rw [length_flatten_map_const _ 20]
  · rw [show (pairsComb (regions.take 15)).length = 105 by simp [regions, pairsComb]]
  · intro p _
    rw [length_flatten_map_const
      (fun base => regionalFusionCands p.1 p.2 base) 2 _ (fun b _ => rfl)]
    simp [base_genres]

/-- Strategy 2 produces 640 candidates: 10 eras × 16 bases × 4 patterns. -/
theorem strategy2Cands_length : strategy2Cands.length = 640 := by
  unfold strategy2Cands
  rw [length_flatten_map_const _ 64]
  · simp [eras]
  · intro era _
    rw [length_flatten_map_const
      (fun base => eraVariantCands era base) 4 _ (fun b _ => rfl)]
    simp [base_genres]

/-- Strategy 3 produces 180 candidates: 9 instruments × 10 bases × 2
patterns (the `instruments[:10]` prefix holds only the 9 configured
instruments). -/
theorem strategy3Cands_length : strategy3Cands.length = 180 := by
  unfold strategy3Cands
  rw [length_flatten_map_const _ 20]
  · simp [instruments]
  · intro instr _
    rw [length_flatten_map_const
      (fun base => instrumentCands instr base) 2 _ (fun b _ => rfl)]
    simp [base_genres]

/-- Strategy 4 produces 880 candidates: 16 bases × (5 electronic + 5×10
traditional) modifier variants. -/
theorem strategy4Cands_length : strategy4Cands.length = 880 := by
  unfold strategy4Cands
  rw [length_flatten_map_const _ 55]
  · simp [base_genres]
  · intro b _
    unfold modifierCands
    rw [List.length_append, length_flatten_map_const _ 10]
    · simp [electronicModifiers, traditionalModifiers]
    · intro m _
      simp [regions]

/-- Behavior of the per-append early exit of strategy 1: starting below
the limit, the loop either fires exactly at the limit (when enough items
remain) or appends every item and stays below the limit. -/
theorem earlyAppend_spec (limit : Nat) :
    ∀ (items acc : List Candidate), acc.length < limit →
      (((earlyAppend limit acc items).2 = true ↔ limit ≤ acc.length + items.length) ∧
       ((earlyAppend limit acc items).2 = true →
         (earlyAppend limit acc items).1.length = limit) ∧
       ((earlyAppend limit acc items).2 = false →
         (earlyAppend limit acc items).1 = acc ++ items)) := by
  intro items
  induction items with
  | nil =>
    intro acc hacc
    refine ⟨?_, ?_, ?_⟩
    · simp [earlyAppend]
      omega
    · simp [earlyAppend]
    · simp [earlyAppend]
  | cons c cs ih =>
    intro acc hacc
    by_cases hl : limit ≤ (acc ++ [c]).length
    · have hl1 : limit ≤ acc.length + 1 := by simpa using hl
      refine ⟨?_, ?_, ?_⟩
      · simp only [earlyAppend, if_pos hl]
        simp only [List.length_cons]
        constructor
        · intro _; omega
        · intro _; trivial
      · intro _
        simp only [earlyAppend, if_pos hl]
        simp only [List.length_append, List.length_singleton]
        omega
      · intro hfalse
        simp only [earlyAppend, if_pos hl] at hfalse
        exact Bool.noConfusion hfalse
    · have hl1 : ¬ (limit ≤ acc.length + 1) := by simpa using hl
      have hacc' : (acc ++ [c]).length < limit := by
        simp only [List.length_append, List.length_singleton]
        omega
      obtain ⟨hiff, htrue, hfalse⟩ := ih (acc ++ [c]) hacc'
      refine ⟨?_, ?_, ?_⟩
      · simp only [earlyAppend, if_neg hl]
        rw [hiff]
        simp only [List.length_append, List.length_singleton, List.length_cons,
          List.length_nil] at hacc' hl ⊢
        omega
      · intro ht
        simp only [earlyAppend, if_neg hl] at ht ⊢
        exact htrue ht
      · intro hf
        simp only [earlyAppend, if_neg hl] at hf ⊢
        rw [hfalse hf, List.append_assoc]
        rfl

/-- C4 (amended): for every limit ≥ 1 and every random stream,
`generate_combinations(limit)` returns exactly `min limit 6800` candidates
under the default seed vocabularies — at most `limit`, exactly `limit`
whenever the five strategies together can produce that many (which they can
up to their exhaustion total of 6800), and the full 6800 when `limit`
exceeds it. -/
theorem generate_combinations_limit (rnd : Nat → MicroRand) (limit : Nat)
    (hpos : 1 ≤ limit) :
    (generate_combinations rnd limit).length = min limit 6800 := by
  unfold generate_combinations
  obtain ⟨hiff, htrue, hfalse⟩ :=
    earlyAppend_spec limit strategy1Cands [] (by simpa using hpos)
  rcases he : earlyAppend limit [] strategy1Cands with ⟨gen, b⟩
  rw [he] at hiff htrue hfalse
  cases b with
  | true =>
    show gen.length = min limit 6800
    have hlen : gen.length = limit := htrue rfl
    have hle : limit ≤ 2100 := by
      have h0 := hiff.mp rfl
      rw [List.length_nil, Nat.zero_add, strategy1Cands_length] at h0
      exact h0
    rw [hlen]
    omega
  | false =>
    have hgen : gen = strategy1Cands := by
      have hg := hfalse rfl
      rw [List.nil_append] at hg
      exact hg
    have h2100 : ¬ (limit ≤ 2100) := by
      intro hc
      have hb : (gen, false).2 = true := hiff.mpr (by
        rw [List.length_nil, Nat.zero_add, strategy1Cands_length]
        exact hc)
      exact Bool.noConfusion hb
    show ((gen ++ strategy2Cands ++ strategy3Cands ++ strategy4Cands ++
      (List.range (min 3000 (limit -
        (gen ++ strategy2Cands ++ strategy3Cands ++ strategy4Cands).length))).map
        (fun i => microGenreCand (rnd i))).take limit).length = min limit 6800
    simp only [List.length_take, List.length_append, List.length_map,
      List.length_range, hgen, strategy1Cands_length, strategy2Cands_length,
      strategy3Cands_length, strategy4Cands_length]
    omega

/-- Witness for C4 (amended) at a concrete input: `generate(37)` yields
exactly 37 candidates. -/
theorem generate_combinations_limit_witness :
    (generate_combinations (fun _ => mr0) 37).length = min 37 6800 :=
  generate_combinations_limit (fun _ => mr0) 37 (by decide)

set_option maxRecDepth 4000 in
/-- Counterexample to C4 as stated: at `limit = 0` the early exit of
strategy 1 fires only after the first append, so `generate(0)` returns one
candidate — more than the limit. -/
theorem generate_combinations_counterexample :
    (generate_combinations (fun _ => mr0) 0).length = 1 ∧
    ¬ ((generate_combinations (fun _ => mr0) 0).length ≤ 0) := by
  obtain ⟨cs, hcs⟩ : ∃ cs, strategy1Cands =
      { name := "USA UK Fusion", type := "regional_fusion",
        components := ["USA", "UK", "Blues"] } :: cs := ⟨_, rfl⟩
  unfold generate_combinations
  rw [hcs]
  simp [earlyAppend]
